import Mathlib

/-!
# MailHarbor configuration compiler — verification development

Shallow embedding of the configuration compilation pipeline of the
`mailharbor` repository (`src/config_manager.py`, `src/init_config.py`,
`src/dovecot_generator.py`, `src/fetchmail_generator.py`, `src/utils.py`).

Modelling conventions:
* A YAML mapping value that the code reads with `dict.get(key)` or tests
  with `key in dict` is embedded as an `Option`-typed structure field:
  `none` means the key is absent (or null). Python truthiness on string
  values (`if not username`) is `none` or the empty string.
* The jinja2 template engine is an external collaborator: each generator
  is parametrised by an opaque rendering function from the template-data
  record to the rendered text, so artifact bytes are whatever the renderer
  returns on the data the code builds.
* The filesystem is a state record: a partial map from paths to file
  contents, a set of directories, and a partial map of permission modes.
  `os.makedirs(..., exist_ok=True)` / `Path.mkdir(parents=True,
  exist_ok=True)` never raise and are modelled as creating the target path
  (intermediate ancestors are elided; no claim depends on them).
  `os.chown` failures are caught and logged by the code, so ownership is
  not part of the state.
* Logging is pure observation and is not modelled.
-/

/-- The `account:` sub-mapping of one account document
(`config_manager.py` reads `username`, `password`, `password_scheme`;
`enabled` lives at the top level of the document in this code base). -/
structure AccountSection where
  username : Option String
  password : Option String
  password_scheme : Option String
deriving DecidableEq, Repr

/-- The `source:` sub-mapping of one account document. -/
structure SourceSection where
  protocol : Option String
  host : Option String
  port : Option Nat
  ssl : Option Bool
  username : Option String
  password : Option String
deriving DecidableEq, Repr

/-- The optional `fetch:` sub-mapping of one account document. -/
structure FetchSection where
  keep_mail : Option Bool
  batch_limit : Option Nat
  folders : Option (List String)
deriving DecidableEq, Repr

/-- One parsed account document (`accounts/<name>.yaml`).  `enabled` is the
top-level flag read by `config.get('enabled', True)`. -/
structure AccountConfig where
  account : Option AccountSection
  source : Option SourceSection
  fetch : Option FetchSection
  enabled : Option Bool
deriving DecidableEq, Repr

/-- The `dovecot:` sub-mapping of the global document.  `performance` and
`fts` are passed through verbatim to the template; their entries are
modelled as opaque key/value pairs. -/
structure DovecotSection where
  ssl_cert : Option String
  ssl_key : Option String
  imap_port : Option Nat
  imaps_port : Option Nat
  performance : List (String × String)
  fts : List (String × String)
deriving DecidableEq, Repr

/-- The `fetchmail:` sub-mapping of the global document.  The code reads
only `keep_mail`, `poll_interval` and `syslog`; `batch_limit` and
`folders` keys may still be present in the document (the generator never
looks at them). -/
structure FetchmailSection where
  keep_mail : Option Bool
  poll_interval : Option Nat
  syslog : Option Bool
  batch_limit : Option Nat
  folders : Option (List String)
deriving DecidableEq, Repr

/-- The parsed `global.yaml` document. -/
structure GlobalConfig where
  dovecot : Option DovecotSection
  fetchmail : Option FetchmailSection
deriving DecidableEq, Repr

def emptyAccountSection : AccountSection := ⟨none, none, none⟩
def emptySourceSection : SourceSection := ⟨none, none, none, none, none, none⟩
def emptyFetchSection : FetchSection := ⟨none, none, none⟩
def emptyDovecotSection : DovecotSection := ⟨none, none, none, none, [], []⟩
def emptyFetchmailSection : FetchmailSection := ⟨none, none, none, none, none⟩
def emptyGlobalConfig : GlobalConfig := ⟨none, none⟩

/-- Python truthiness of the string-valued `dict.get` result:
`None` and `""` are falsy, everything else truthy. -/
def truthyStr : Option String → Bool
  | none => false
  | some s => s ≠ ""

/-! ## Filesystem state -/

/-- Filesystem state: file contents, directory set and permission modes.
`os.path.exists` is true on files and directories alike. -/
structure FS where
  files : String → Option String
  dirs : String → Bool
  modes : String → Option Nat

def FS.pathExists (fs : FS) (p : String) : Bool :=
  (fs.files p).isSome || fs.dirs p

/-- `os.makedirs(p, mode, exist_ok=True)` / `Path.mkdir(parents=True,
exist_ok=True)`: create the directory if absent (recording its mode),
no error if it already exists. -/
def FS.mkdirP (fs : FS) (p : String) (mode : Nat) : FS :=
  if fs.dirs p then fs
  else { fs with
    dirs := fun q => if q = p then true else fs.dirs q
    modes := fun q => if q = p then some mode else fs.modes q }

/-- `open(p, 'w').write(c)`: create or truncate, then write. -/
def FS.write (fs : FS) (p : String) (c : String) : FS :=
  { fs with files := fun q => if q = p then some c else fs.files q }

/-- `os.chmod(p, mode)`. -/
def FS.chmod (fs : FS) (p : String) (mode : Nat) : FS :=
  { fs with modes := fun q => if q = p then some mode else fs.modes q }

/-- `Path(p).parent` for the absolute paths used here: drop the last
`/`-separated component. -/
def parentDir (p : String) : String :=
  ⟨((p.data.reverse.dropWhile fun c => c ≠ '/').drop 1).reverse⟩

/-! ## ConfigManager (`src/config_manager.py`) -/

/-- `load_global_config`: absent file yields the empty mapping with a
warning; a present file yields its parsed document.  The argument is
`none` when `global.yaml` does not exist. -/
def load_global_config (globalFile : Option GlobalConfig) : GlobalConfig :=
  match globalFile with
  | none => emptyGlobalConfig
  | some g => g

/-- `load_account_configs`: each `accounts/*.yaml` file is parsed
independently; the input pairs a file stem with the parse result (`none`
when `yaml.safe_load` raised).  A parse failure is logged and the account
skipped; it never aborts the batch.  An absent accounts directory is the
empty input list. -/
def load_account_configs (files : List (String × Option AccountConfig)) :
    List (String × AccountConfig) :=
  files.filterMap fun nc => nc.2.map fun c => (nc.1, c)

/-- The reasons `_validate_account_config` raises `ValueError`. -/
inductive ValidationError where
  | missingSections (accountName : String)
  | missingCredentials (accountName : String)
  | invalidProtocol (accountName : String)
  | missingServerDetails (accountName : String)
deriving DecidableEq, Repr

/-- `_validate_account_config`: key-presence and protocol checks, raising
on the first failed check. -/
def _validate_account_config (account_name : String) (config : AccountConfig) :
    Except ValidationError Unit :=
  if config.account.isNone || config.source.isNone then
    .error (.missingSections account_name)
  else
    let account := config.account.getD emptyAccountSection
    let source := config.source.getD emptySourceSection
    if account.username.isNone || account.password.isNone then
      .error (.missingCredentials account_name)
    else if source.protocol.isNone ||
        !(source.protocol.getD "" = "imap" || source.protocol.getD "" = "pop3") then
      .error (.invalidProtocol account_name)
    else if source.host.isNone || source.port.isNone then
      .error (.missingServerDetails account_name)
    else .ok ()

/-- `validate_all`: validate every loaded account, re-raising the first
failure (the `except` clause logs and re-raises). -/
def validate_all : List (String × AccountConfig) → Except ValidationError Unit
  | [] => .ok ()
  | nc :: rest =>
    match _validate_account_config nc.1 nc.2 with
    | .error e => .error e
    | .ok _ => validate_all rest

/-- A security finding emitted by `check_security_warnings` (logged only,
never raised). -/
inductive SecurityFinding where
  | sslNotConfigured
  | sslCertMissing (path : String)
  | sslKeyMissing (path : String)
  | plaintextPassword (accountName : String)
deriving DecidableEq, Repr

/-- `check_security_warnings`: advisory findings about TLS material and
plaintext password schemes; purely observational. -/
def check_security_warnings (global_config : GlobalConfig)
    (account_configs : List (String × AccountConfig)) (fs : FS) :
    List SecurityFinding :=
  let dc := global_config.dovecot.getD emptyDovecotSection
  let ssl_cert := dc.ssl_cert
  let ssl_key := dc.ssl_key
  let sslFindings :=
    if !truthyStr ssl_cert || !truthyStr ssl_key then
      [SecurityFinding.sslNotConfigured]
    else
      (if !fs.pathExists (ssl_cert.getD "") then
        [SecurityFinding.sslCertMissing (ssl_cert.getD "")] else []) ++
      (if !fs.pathExists (ssl_key.getD "") then
        [SecurityFinding.sslKeyMissing (ssl_key.getD "")] else [])
  sslFindings ++ account_configs.filterMap fun nc =>
    if ((nc.2.account.getD emptyAccountSection).password_scheme.getD "PLAIN")
        = "PLAIN" then
      some (.plaintextPassword nc.1)
    else none

/-- State of a `ConfigManager` after `load_all`. -/
structure ConfigManagerState where
  global_config : GlobalConfig
  account_configs : List (String × AccountConfig)
deriving DecidableEq, Repr

/-- `load_all`: load global config and accounts, then `validate_all`
(raising on the first invalid account); `check_security_warnings` only
logs and does not affect the result. -/
def load_all (globalFile : Option GlobalConfig)
    (accountFiles : List (String × Option AccountConfig)) :
    Except ValidationError ConfigManagerState :=
  let g := load_global_config globalFile
  let accounts := load_account_configs accountFiles
  match validate_all accounts with
  | .error e => .error e
  | .ok _ => .ok ⟨g, accounts⟩

/-- An element of the enabled-account view: the account document annotated
with its originating account name (`config['_account_name'] =
account_name`; the generators read it back with
`account.get('_account_name', 'unknown')`). -/
structure EnabledAccount where
  accountName : Option String
  config : AccountConfig
deriving DecidableEq, Repr

/-- `get_enabled_accounts`: keep accounts whose top-level `enabled` is not
false (absent defaults to true), annotating each with its name. -/
def get_enabled_accounts (account_configs : List (String × AccountConfig)) :
    List EnabledAccount :=
  account_configs.filterMap fun nc =>
    if nc.2.enabled.getD true then some ⟨some nc.1, nc.2⟩ else none

/-! ## DovecotGenerator (`src/dovecot_generator.py`) -/

/-- The template-data dictionary built by `_generate_main_config` and
passed to `dovecot.conf.j2`. -/
structure MainTemplateData where
  imap_port : Nat
  imaps_port : Nat
  ssl_enabled : Bool
  ssl_cert : Option String
  ssl_key : Option String
  performance : List (String × String)
  fts : List (String × String)
  mail_location : String
deriving DecidableEq, Repr

/-- The `ssl_enabled` flag computed by `_generate_main_config`:
both paths truthy and both files present on disk at render time. -/
def ssl_enabled_check (global_config : GlobalConfig) (fs : FS) : Bool :=
  let dc := global_config.dovecot.getD emptyDovecotSection
  if truthyStr dc.ssl_cert && truthyStr dc.ssl_key then
    fs.pathExists (dc.ssl_cert.getD "") && fs.pathExists (dc.ssl_key.getD "")
  else false

/-- The data dictionary of `_generate_main_config` (defaults 143/993,
pass-through tuning blocks, fixed mail location). -/
def main_template_data (global_config : GlobalConfig) (fs : FS) :
    MainTemplateData :=
  let dc := global_config.dovecot.getD emptyDovecotSection
  { imap_port := dc.imap_port.getD 143
    imaps_port := dc.imaps_port.getD 993
    ssl_enabled := ssl_enabled_check global_config fs
    ssl_cert := dc.ssl_cert
    ssl_key := dc.ssl_key
    performance := dc.performance
    fts := dc.fts
    mail_location := "/data/mail/%u" }

/-- `_generate_main_config`: build the data, render the template, create
the output parent directory and write the file. -/
def _generate_main_config (renderMain : MainTemplateData → String)
    (global_config : GlobalConfig) (output_path : String) (fs : FS) : FS :=
  let data := main_template_data global_config fs
  let fs := fs.mkdirP (parentDir output_path) 0o777
  fs.write output_path (renderMain data)

/-- One row of the dovecot users file. -/
structure UserRow where
  username : Option String
  password : Option String
  password_scheme : String
deriving DecidableEq, Repr

/-- The `users_data` list of `_generate_users_file`: one row per account
in the list, with the raw `account.username` / `account.password` values
(possibly null) and scheme defaulting to `PLAIN`. -/
def users_data (account_configs : List EnabledAccount) : List UserRow :=
  account_configs.map fun acc =>
    let account_info := acc.config.account.getD emptyAccountSection
    { username := account_info.username
      password := account_info.password
      password_scheme := account_info.password_scheme.getD "PLAIN" }

/-- `_generate_users_file`: render the rows, create the parent directory,
write the file and chmod it 0640 (the chown to the daemon identity is
metadata outside this model). -/
def _generate_users_file (renderUsers : List UserRow → String)
    (account_configs : List EnabledAccount) (output_path : String) (fs : FS) :
    FS :=
  let rows := users_data account_configs
  let fs := fs.mkdirP (parentDir output_path) 0o777
  let fs := fs.write output_path (renderUsers rows)
  fs.chmod output_path 0o640

/-- The per-user directories `_create_mailbox_directories` creates for a
(truthy) username: mailbox root, its three subdirectories and the
full-text-search directory. -/
def userDirPaths (u : String) : List String :=
  ["/data/mail/" ++ u, "/data/mail/" ++ u ++ "/cur",
   "/data/mail/" ++ u ++ "/new", "/data/mail/" ++ u ++ "/tmp",
   "/data/fts/" ++ u]

/-- Body of the first loop of `_create_mailbox_directories`: skip accounts
with a falsy username (`if not username: continue`), else create the
mailbox root and its `cur`/`new`/`tmp` subdirectories. -/
def mail_dir_step (fs : FS) (acc : EnabledAccount) : FS :=
  let username := (acc.config.account.getD emptyAccountSection).username
  if !truthyStr username then fs
  else
    let u := username.getD ""
    let fs := fs.mkdirP ("/data/mail/" ++ u) 0o777
    let fs := fs.mkdirP ("/data/mail/" ++ u ++ "/cur") 0o777
    let fs := fs.mkdirP ("/data/mail/" ++ u ++ "/new") 0o777
    fs.mkdirP ("/data/mail/" ++ u ++ "/tmp") 0o777

/-- Body of the second loop of `_create_mailbox_directories`: the
per-account full-text-search directory, with the same username skip. -/
def fts_dir_step (fs : FS) (acc : EnabledAccount) : FS :=
  let username := (acc.config.account.getD emptyAccountSection).username
  if !truthyStr username then fs
  else fs.mkdirP ("/data/fts/" ++ username.getD "") 0o777

/-- `_create_mailbox_directories`: shared mail root, then per-account
mailbox root and `cur`/`new`/`tmp` (accounts with a falsy username are
skipped), then the shared fts root and per-account fts directories.
All creations use `exist_ok=True`; `os.chown` failures are logged only. -/
def _create_mailbox_directories (account_configs : List EnabledAccount)
    (fs : FS) : FS :=
  let fs := fs.mkdirP "/data/mail" 0o777
  let fs := account_configs.foldl mail_dir_step fs
  let fs := fs.mkdirP "/data/fts" 0o777
  account_configs.foldl fts_dir_step fs

/-- The two rendering functions a `DovecotGenerator` holds (its jinja2
environment), treated as opaque external collaborators. -/
structure DovecotRenderers where
  renderMain : MainTemplateData → String
  renderUsers : List UserRow → String

/-- `DovecotGenerator.generate_config`: main config, users file, mailbox
directories, in that order. -/
def dovecot_generate_config (gen : DovecotRenderers)
    (global_config : GlobalConfig) (account_configs : List EnabledAccount)
    (dovecot_conf_path : String) (users_file_path : String) (fs : FS) : FS :=
  let fs := _generate_main_config gen.renderMain global_config
    dovecot_conf_path fs
  let fs := _generate_users_file gen.renderUsers account_configs
    users_file_path fs
  _create_mailbox_directories account_configs fs

/-! ## FetchmailGenerator (`src/fetchmail_generator.py`) -/

/-- The `source` sub-dictionary of one entry of `accounts_data`. -/
structure FetchSourceData where
  protocol : String
  host : Option String
  port : Option Nat
  ssl : Bool
  username : Option String
  password : Option String
  keep_mail : Bool
  batch_limit : Nat
  folders : List String
deriving DecidableEq, Repr

/-- One entry of the `accounts_data` list of `_prepare_template_data`. -/
structure FetchAccountData where
  name : String
  username : Option String
  source : FetchSourceData
deriving DecidableEq, Repr

/-- The dictionary `_prepare_template_data` returns for `fetchmailrc.j2`. -/
structure RcTemplateData where
  poll_interval : Nat
  syslog : Bool
  accounts : List FetchAccountData
deriving DecidableEq, Repr

/-- The `account_data` entry built for one enabled account: defaults
pop3 / ssl-on; `keep_mail` falls back to the global fetchmail block then
to `True`; `batch_limit` and `folders` fall back directly to `100` and
`['INBOX']`. -/
def fetch_account_data (fetchmail_config : FetchmailSection)
    (acc : EnabledAccount) : FetchAccountData :=
  let account_info := acc.config.account.getD emptyAccountSection
  let source_info := acc.config.source.getD emptySourceSection
  let fetch_info := acc.config.fetch.getD emptyFetchSection
  { name := acc.accountName.getD "unknown"
    username := account_info.username
    source :=
      { protocol := source_info.protocol.getD "pop3"
        host := source_info.host
        port := source_info.port
        ssl := source_info.ssl.getD true
        username := source_info.username
        password := source_info.password
        keep_mail := fetch_info.keep_mail.getD
          (fetchmail_config.keep_mail.getD true)
        batch_limit := fetch_info.batch_limit.getD 100
        folders := fetch_info.folders.getD ["INBOX"] } }

/-- `_prepare_template_data`: global poll interval (default 300) and
syslog flag (default off), plus one entry per account. -/
def _prepare_template_data (global_config : GlobalConfig)
    (account_configs : List EnabledAccount) : RcTemplateData :=
  let fetchmail_config := global_config.fetchmail.getD emptyFetchmailSection
  { poll_interval := fetchmail_config.poll_interval.getD 300
    syslog := fetchmail_config.syslog.getD false
    accounts := account_configs.map (fetch_account_data fetchmail_config) }

/-- `FetchmailGenerator.generate_config`: re-filter enabled accounts; if
none remain, log a warning and write nothing; otherwise render and write
the rc file with mode 0600. -/
def fetchmail_generate_config (renderRc : RcTemplateData → String)
    (global_config : GlobalConfig) (account_configs : List EnabledAccount)
    (output_path : String) (fs : FS) : FS :=
  let enabled_accounts :=
    account_configs.filter fun acc => acc.config.enabled.getD true
  if enabled_accounts.isEmpty then fs
  else
    let data := _prepare_template_data global_config enabled_accounts
    let fs := fs.mkdirP (parentDir output_path) 0o777
    let fs := fs.write output_path (renderRc data)
    fs.chmod output_path 0o600

/-! ## init_configs (`src/init_config.py`) -/

/-- The non-zero-exit causes of `init_configs` relevant to this model:
a validation failure re-raised out of `load_all`, or an empty
enabled-account list. -/
inductive InitError where
  | validation (e : ValidationError)
  | noEnabledAccounts
deriving DecidableEq, Repr

/-- All renderers of one compilation cycle. -/
structure Renderers where
  dovecot : DovecotRenderers
  renderRc : RcTemplateData → String

/-- The five `ensure_directory` calls at the start of `init_configs`
(`utils.ensure_directory` is `os.makedirs(path, mode=0o755,
exist_ok=True)`). -/
def ensure_base_directories (fs : FS) : FS :=
  (["/data/mail", "/data/fts", "/data/logs", "/etc/dovecot",
    "/etc/fetchmail"]).foldl (fun fs p => fs.mkdirP p 0o755) fs

/-- `init_configs`: ensure base directories, `load_all` (a validation
failure aborts with exit 1), take the enabled view (an empty view aborts
with exit 1 before any generation), then generate the dovecot artifacts
followed by the fetchmail artifact.  The result pairs the final
filesystem with `none` for exit 0 or the abort cause for exit 1. -/
def init_configs (gen : Renderers) (globalFile : Option GlobalConfig)
    (accountFiles : List (String × Option AccountConfig)) (fs : FS) :
    FS × Option InitError :=
  let fs := ensure_base_directories fs
  match load_all globalFile accountFiles with
  | .error e => (fs, some (.validation e))
  | .ok st =>
    let account_configs := get_enabled_accounts st.account_configs
    if account_configs.isEmpty then (fs, some .noEnabledAccounts)
    else
      let fs := dovecot_generate_config gen.dovecot st.global_config
        account_configs "/etc/dovecot/dovecot.conf" "/etc/dovecot/users" fs
      let fs := fetchmail_generate_config gen.renderRc st.global_config
        account_configs "/etc/fetchmailrc" fs
      (fs, none)

/-! ## ConfigChangeHandler (`src/config_manager.py`, debounce watcher) -/

/-- A filesystem modification event delivered to `on_modified`; times are
in milliseconds. -/
structure FsEvent where
  time : Nat
  is_directory : Bool
  src_path : String
deriving DecidableEq, Repr

/-- Python `str.endswith`: character-level suffix test. -/
def str_endswith (s suffix : String) : Bool :=
  suffix.data.isSuffixOf s.data

/-- An event is acted upon iff it is not a directory event and its path
ends in `.yaml`. -/
def eventQualifies (e : FsEvent) : Bool :=
  !e.is_directory && str_endswith e.src_path ".yaml"

/-- `on_modified` on the debounce state (the pending timer's absolute
deadline, or `none` when idle): directory events and non-`.yaml` paths
return immediately; otherwise any pending timer is cancelled and a fresh
1.0-second timer started. -/
def on_modified (timer : Option Nat) (e : FsEvent) : Option Nat :=
  if e.is_directory || !str_endswith e.src_path ".yaml" then timer
  else some (e.time + 1000)

/-- Number of callback invocations over a time-ordered event sequence:
a pending timer whose deadline is reached before the next event fires
(exactly once) and returns the handler to idle; otherwise the event is
processed by `on_modified`.  A timer still pending after the last event
fires once the quiet period elapses. -/
def countFires : Option Nat → List FsEvent → Nat
  | timer, [] => if timer.isSome then 1 else 0
  | timer, e :: rest =>
    match timer with
    | some d =>
      if d ≤ e.time then 1 + countFires (on_modified none e) rest
      else countFires (on_modified (some d) e) rest
    | none => countFires (on_modified none e) rest

/-! ## Basic filesystem lemmas -/

theorem FS.files_mkdirP (fs : FS) (p : String) (m : Nat) :
    (fs.mkdirP p m).files = fs.files := by
  unfold FS.mkdirP; split <;> rfl

theorem FS.files_chmod (fs : FS) (p : String) (m : Nat) :
    (fs.chmod p m).files = fs.files := rfl

theorem FS.dirs_write (fs : FS) (p : String) (c : String) :
    (fs.write p c).dirs = fs.dirs := rfl

theorem FS.dirs_chmod (fs : FS) (p : String) (m : Nat) :
    (fs.chmod p m).dirs = fs.dirs := rfl

theorem FS.dirs_mkdirP_iff (fs : FS) (p : String) (m : Nat) (q : String) :
    ((fs.mkdirP p m).dirs q = true) ↔ (fs.dirs q = true ∨ q = p) := by
  unfold FS.mkdirP
  by_cases h : fs.dirs p = true
  · rw [if_pos h]
    constructor
    · exact fun hq => Or.inl hq
    · rintro (hq | rfl)
      · exact hq
      · exact h
  · rw [if_neg h]
    show (if q = p then true else fs.dirs q) = true ↔ _
    by_cases hqp : q = p
    · simp [hqp]
    · simp [hqp]

theorem FS.pathExists_mkdirP (fs : FS) (p : String) (m : Nat) (q : String) :
    ((fs.mkdirP p m).pathExists q = true) ↔
      (fs.pathExists q = true ∨ q = p) := by
  unfold FS.pathExists
  rw [FS.files_mkdirP]
  constructor
  · intro h
    rcases Bool.or_eq_true_iff.1 h with h | h
    · exact Or.inl (Bool.or_eq_true_iff.2 (Or.inl h))
    · rcases (FS.dirs_mkdirP_iff fs p m q).1 h with h | h
      · exact Or.inl (Bool.or_eq_true_iff.2 (Or.inr h))
      · exact Or.inr h
  · rintro (h | rfl)
    · rcases Bool.or_eq_true_iff.1 h with h | h
      · exact Bool.or_eq_true_iff.2 (Or.inl h)
      · exact Bool.or_eq_true_iff.2
          (Or.inr ((FS.dirs_mkdirP_iff fs p m q).2 (Or.inl h)))
    · exact Bool.or_eq_true_iff.2
        (Or.inr ((FS.dirs_mkdirP_iff fs q m q).2 (Or.inr rfl)))

/-- A fold whose step never touches file contents never touches file
contents. -/
theorem files_foldl {α : Type} (f : FS → α → FS)
    (h : ∀ fs a, (f fs a).files = fs.files) :
    ∀ (l : List α) (fs : FS), (l.foldl f fs).files = fs.files := by
  intro l
  induction l with
  | nil => intro fs; rfl
  | cons x xs ih => intro fs; rw [List.foldl_cons, ih, h]

/-- Directory contents of a fold whose step adds exactly the directories
`g a` on element `a`. -/
theorem dirs_foldl_iff {α : Type} (f : FS → α → FS) (g : α → List String)
    (h : ∀ fs a q, ((f fs a).dirs q = true) ↔ (fs.dirs q = true ∨ q ∈ g a)) :
    ∀ (l : List α) (fs : FS) (q : String),
      ((l.foldl f fs).dirs q = true) ↔
        (fs.dirs q = true ∨ ∃ a ∈ l, q ∈ g a) := by
  intro l
  induction l with
  | nil => simp
  | cons x xs ih =>
    intro fs q
    rw [List.foldl_cons, ih, h]
    constructor
    · rintro ((hq | hq) | ⟨a, ha, hq⟩)
      · exact Or.inl hq
      · exact Or.inr ⟨x, List.mem_cons_self x xs, hq⟩
      · exact Or.inr ⟨a, List.mem_cons_of_mem x ha, hq⟩
    · rintro (hq | ⟨a, ha, hq⟩)
      · exact Or.inl (Or.inl hq)
      · rcases List.mem_cons.1 ha with rfl | ha
        · exact Or.inl (Or.inr hq)
        · exact Or.inr ⟨a, ha, hq⟩

theorem files_ensure_base_directories (fs : FS) :
    (ensure_base_directories fs).files = fs.files :=
  files_foldl _ (fun fs p => FS.files_mkdirP fs p 0o755) _ fs

theorem dirs_ensure_base_directories (fs : FS) (q : String) :
    ((ensure_base_directories fs).dirs q = true) ↔
      (fs.dirs q = true ∨ q ∈ ["/data/mail", "/data/fts", "/data/logs",
        "/etc/dovecot", "/etc/fetchmail"]) := by
  have := dirs_foldl_iff (fun fs p => fs.mkdirP p 0o755) (fun p => [p])
    (fun fs p q => by simpa using FS.dirs_mkdirP_iff fs p 0o755 q)
    ["/data/mail", "/data/fts", "/data/logs", "/etc/dovecot",
      "/etc/fetchmail"] fs q
  rw [ensure_base_directories, this]
  simp

theorem pathExists_ensure_base_directories (fs : FS) (q : String) :
    ((ensure_base_directories fs).pathExists q = true) ↔
      (fs.pathExists q = true ∨ q ∈ ["/data/mail", "/data/fts", "/data/logs",
        "/etc/dovecot", "/etc/fetchmail"]) := by
  unfold FS.pathExists
  rw [files_ensure_base_directories]
  constructor
  · intro h
    rcases Bool.or_eq_true_iff.1 h with h | h
    · exact Or.inl (Bool.or_eq_true_iff.2 (Or.inl h))
    · rcases (dirs_ensure_base_directories fs q).1 h with h | h
      · exact Or.inl (Bool.or_eq_true_iff.2 (Or.inr h))
      · exact Or.inr h
  · rintro (h | h)
    · rcases Bool.or_eq_true_iff.1 h with h | h
      · exact Bool.or_eq_true_iff.2 (Or.inl h)
      · exact Bool.or_eq_true_iff.2
          (Or.inr ((dirs_ensure_base_directories fs q).2 (Or.inl h)))
    · exact Bool.or_eq_true_iff.2
        (Or.inr ((dirs_ensure_base_directories fs q).2 (Or.inr h)))

/-! ## Validation lemmas -/

/-- Whether a `_validate_account_config` call returned normally. -/
def validationPasses : Except ValidationError Unit → Bool
  | .ok _ => true
  | .error _ => false

theorem validate_all_ok_iff (l : List (String × AccountConfig)) :
    validate_all l = .ok () ↔
      ∀ nc ∈ l, validationPasses (_validate_account_config nc.1 nc.2) = true := by
  induction l with
  | nil => simp [validate_all]
  | cons x xs ih =>
    rw [validate_all]
    cases hx : _validate_account_config x.1 x.2 with
    | error e => simp [hx, validationPasses]
    | ok u =>
      cases u
      simp only [ih]
      constructor
      · intro h nc hnc
        rcases List.mem_cons.1 hnc with rfl | hnc
        · rw [hx]; rfl
        · exact h nc hnc
      · intro h nc hnc
        exact h nc (List.mem_cons_of_mem x hnc)

theorem validate_all_error_of_invalid (l : List (String × AccountConfig))
    (h : ∃ nc ∈ l, validationPasses (_validate_account_config nc.1 nc.2) = false) :
    ∃ e, validate_all l = .error e := by
  cases hv : validate_all l with
  | error e => exact ⟨e, rfl⟩
  | ok u =>
    cases u
    obtain ⟨nc, hmem, hbad⟩ := h
    rw [(validate_all_ok_iff l).1 hv nc hmem] at hbad
    cases hbad

deriving instance DecidableEq for Except

/-! ## Concrete fixtures used by witnesses and counterexamples -/

/-- The empty filesystem. -/
def wEmptyFS : FS := ⟨fun _ => none, fun _ => false, fun _ => none⟩

/-- Renderers producing a fixed marker per artifact (the template engine
is opaque; any functions will do for concrete evaluation). -/
def wRenderers : Renderers :=
  ⟨⟨fun _ => "MAIN", fun _ => "USERS"⟩, fun _ => "RC"⟩

/-- A structurally valid, enabled account document. -/
def wValidCfg : AccountConfig :=
  { account := some ⟨some "alice", some "pw", none⟩
    source := some ⟨some "imap", some "mail.example.org", some 993, none,
      none, none⟩
    fetch := none
    enabled := none }

/-- A structurally invalid account document (no `account`/`source`). -/
def wInvalidCfg : AccountConfig := ⟨none, none, none, none⟩

/-- A structurally valid but disabled account document. -/
def wDisabledCfg : AccountConfig := { wValidCfg with enabled := some false }

/-! ## C1 -/

/-- C1: if any loaded account violates the structural invariant, the
validation step raises (the pipeline aborts with a validation error) and
the compilation cycle writes no artifact at all: the resulting filesystem
is exactly the input filesystem with the five base directories ensured,
with every file content unchanged — so no main config, credentials file,
rc file, or per-account mailbox directory is produced for any account of
the batch. -/
theorem C1_invalid_account_aborts_cycle (gen : Renderers)
    (globalFile : Option GlobalConfig)
    (accountFiles : List (String × Option AccountConfig)) (fs : FS)
    (h : ∃ nc ∈ load_account_configs accountFiles,
      validationPasses (_validate_account_config nc.1 nc.2) = false) :
    (∃ e, (init_configs gen globalFile accountFiles fs).2
      = some (.validation e)) ∧
    (init_configs gen globalFile accountFiles fs).1
      = ensure_base_directories fs ∧
    ∀ p, ((init_configs gen globalFile accountFiles fs).1).files p
      = fs.files p := by
  obtain ⟨e, he⟩ :=
    validate_all_error_of_invalid (load_account_configs accountFiles) h
  have hrun : init_configs gen globalFile accountFiles fs
      = (ensure_base_directories fs, some (.validation e)) := by
    simp only [init_configs, load_all, he]
  refine ⟨⟨e, by rw [hrun]⟩, by rw [hrun], fun p => ?_⟩
  rw [hrun]
  exact congrFun (files_ensure_base_directories fs) p

/-- C1 witness: a concrete batch holding one valid and one invalid
account aborts with a validation error and leaves all file contents
untouched. -/
theorem C1_witness :
    (∃ nc ∈ load_account_configs
        [("alice", some wValidCfg), ("broken", some wInvalidCfg)],
      validationPasses (_validate_account_config nc.1 nc.2) = false) ∧
    ((∃ e, (init_configs wRenderers none
        [("alice", some wValidCfg), ("broken", some wInvalidCfg)]
        wEmptyFS).2 = some (.validation e)) ∧
     (init_configs wRenderers none
        [("alice", some wValidCfg), ("broken", some wInvalidCfg)]
        wEmptyFS).1 = ensure_base_directories wEmptyFS ∧
     ∀ p, ((init_configs wRenderers none
        [("alice", some wValidCfg), ("broken", some wInvalidCfg)]
        wEmptyFS).1).files p = wEmptyFS.files p) := by
  have h : ∃ nc ∈ load_account_configs
      [("alice", some wValidCfg), ("broken", some wInvalidCfg)],
      validationPasses (_validate_account_config nc.1 nc.2) = false := by
    refine ⟨("broken", wInvalidCfg), by decide, by decide⟩
  exact ⟨h, C1_invalid_account_aborts_cycle wRenderers none _ wEmptyFS h⟩

/-! ## C3 -/

theorem load_account_configs_filter
    (files : List (String × Option AccountConfig)) :
    load_account_configs (files.filter fun nc => nc.2.isSome)
      = load_account_configs files := by
  induction files with
  | nil => rfl
  | cons x xs ih =>
    obtain ⟨n, c⟩ := x
    cases c with
    | none =>
      simpa [load_account_configs, List.filter_cons, List.filterMap_cons]
        using ih
    | some cfg =>
      simpa [load_account_configs, List.filter_cons, List.filterMap_cons]
        using ih

theorem mem_load_account_configs
    (files : List (String × Option AccountConfig)) (n : String)
    (c : AccountConfig) :
    (n, c) ∈ load_account_configs files ↔ (n, some c) ∈ files := by
  unfold load_account_configs
  rw [List.mem_filterMap]
  constructor
  · rintro ⟨⟨m, r⟩, hmem, hf⟩
    cases r with
    | none => exact absurd hf (by simp)
    | some cfg =>
      simp only [Option.map_some', Option.some.injEq, Prod.mk.injEq] at hf
      obtain ⟨rfl, rfl⟩ := hf
      exact hmem
  · intro hmem
    exact ⟨(n, some c), hmem, rfl⟩

/-- C3: a per-file parse failure is never fatal: loading skips exactly the
unparseable files (dropping them from the input changes nothing), every
well-formed file's account is returned, and the whole compilation cycle —
validation and artifact generation included — behaves identically with or
without the unparseable files. -/
theorem C3_parse_failures_are_skipped
    (files : List (String × Option AccountConfig)) (gen : Renderers)
    (globalFile : Option GlobalConfig) (fs : FS) :
    load_account_configs files
      = load_account_configs (files.filter fun nc => nc.2.isSome) ∧
    (∀ n c, (n, c) ∈ load_account_configs files ↔ (n, some c) ∈ files) ∧
    init_configs gen globalFile files fs
      = init_configs gen globalFile (files.filter fun nc => nc.2.isSome) fs := by
  have ha := (load_account_configs_filter files).symm
  refine ⟨ha, fun n c => mem_load_account_configs files n c, ?_⟩
  simp only [init_configs, load_all, ha]

/-- C3 witness: with one unparseable file and one well-formed file, the
well-formed account is returned and the cycle equals the cycle on the
well-formed file alone. -/
theorem C3_witness :
    (("alice", wValidCfg) ∈ load_account_configs
      [("bad", none), ("alice", some wValidCfg)]) ∧
    init_configs wRenderers none [("bad", none), ("alice", some wValidCfg)]
        wEmptyFS
      = init_configs wRenderers none
        ([("bad", none), ("alice", some wValidCfg)].filter
          fun nc => nc.2.isSome) wEmptyFS := by
  have h := C3_parse_failures_are_skipped
    [("bad", none), ("alice", some wValidCfg)] wRenderers none wEmptyFS
  exact ⟨(h.2.1 "alice" wValidCfg).2 (by decide), h.2.2⟩

/-! ## C4 -/

/-- The main-config template data depends on the filesystem only through
the existence of the configured certificate and key paths at render
time. -/
theorem main_template_data_congr (global_config : GlobalConfig) (fs fs2 : FS)
    (h : ∀ p, (global_config.dovecot.getD emptyDovecotSection).ssl_cert
        = some p ∨
      (global_config.dovecot.getD emptyDovecotSection).ssl_key = some p →
      fs.pathExists p = fs2.pathExists p) :
    main_template_data global_config fs = main_template_data global_config fs2 := by
  have hx : ssl_enabled_check global_config fs
      = ssl_enabled_check global_config fs2 := by
    unfold ssl_enabled_check
    cases hc : (global_config.dovecot.getD emptyDovecotSection).ssl_cert with
    | none => simp [truthyStr, hc]
    | some c =>
      cases hk : (global_config.dovecot.getD emptyDovecotSection).ssl_key with
      | none => simp [truthyStr, hc, hk]
      | some k =>
        simp only [hc, hk, Option.getD_some]
        rw [h c (Or.inl hc), h k (Or.inr hk)]
  unfold main_template_data
  rw [hx]

/-- C4: the rendered main config enables TLS exactly when both the
certificate and key paths are set (non-null, non-empty) and both
referenced files exist on disk at render time; and the rendered data
depends on the filesystem only through the existence of those two paths
at render time — re-verified independently, so any earlier audit
conclusion is irrelevant. -/
theorem C4_tls_enabled_iff_material_present (global_config : GlobalConfig)
    (fs fs2 : FS) :
    ((main_template_data global_config fs).ssl_enabled = true ↔
      ∃ c k,
        (global_config.dovecot.getD emptyDovecotSection).ssl_cert = some c ∧
        c ≠ "" ∧
        (global_config.dovecot.getD emptyDovecotSection).ssl_key = some k ∧
        k ≠ "" ∧ fs.pathExists c = true ∧ fs.pathExists k = true) ∧
    ((∀ p, (global_config.dovecot.getD emptyDovecotSection).ssl_cert = some p ∨
        (global_config.dovecot.getD emptyDovecotSection).ssl_key = some p →
        fs.pathExists p = fs2.pathExists p) →
      main_template_data global_config fs = main_template_data global_config fs2) := by
  constructor
  · show ssl_enabled_check global_config fs = true ↔ _
    unfold ssl_enabled_check
    cases hc : (global_config.dovecot.getD emptyDovecotSection).ssl_cert with
    | none => simp [truthyStr, hc]
    | some c =>
      cases hk : (global_config.dovecot.getD emptyDovecotSection).ssl_key with
      | none => simp [truthyStr, hc, hk]
      | some k =>
        by_cases hc0 : c = ""
        · simp [truthyStr, hc, hk, hc0]
        · by_cases hk0 : k = ""
          · simp [truthyStr, hc, hk, hc0, hk0]
          · simp [truthyStr, hc, hk, hc0, hk0, Bool.and_eq_true]
  · exact fun h => main_template_data_congr global_config fs fs2 h

/-- Filesystem fixture that carries TLS material. -/
def wFsTLS : FS :=
  ⟨fun p => if p = "/certs/c.pem" then some "CERT"
    else if p = "/certs/k.pem" then some "KEY" else none,
   fun _ => false, fun _ => none⟩

/-- Global settings fixture pointing at the TLS material. -/
def wGlobalTLS : GlobalConfig :=
  ⟨some ⟨some "/certs/c.pem", some "/certs/k.pem", none, none, [], []⟩, none⟩

/-- C4 witness: with both paths set and both files on disk, the rendered
config has TLS enabled. -/
theorem C4_witness : (main_template_data wGlobalTLS wFsTLS).ssl_enabled = true :=
  (C4_tls_enabled_iff_material_present wGlobalTLS wFsTLS wFsTLS).1.2
    ⟨"/certs/c.pem", "/certs/k.pem", rfl, by decide, rfl, by decide,
      by decide, by decide⟩

/-! ## C9 -/

theorem on_modified_qualifies (e : FsEvent) (h : eventQualifies e = true)
    (s : Option Nat) : on_modified s e = some (e.time + 1000) := by
  unfold eventQualifies at h
  obtain ⟨h1, h2⟩ := Bool.and_eq_true_iff.1 h
  have h1' : e.is_directory = false := by
    cases hd : e.is_directory
    · rfl
    · rw [hd] at h1; cases h1
  unfold on_modified
  rw [h1', h2]
  rfl

theorem on_modified_ignores (e : FsEvent) (h : eventQualifies e = false)
    (s : Option Nat) : on_modified s e = s := by
  unfold eventQualifies at h
  unfold on_modified
  cases hd : e.is_directory with
  | true => rfl
  | false =>
    rw [hd] at h
    simp only [Bool.not_false, Bool.true_and] at h
    rw [h]
    rfl

/-- Within a pending 1-second window, every further qualifying event
replaces the timer, and exactly one callback fires at the end of the
burst. -/
theorem countFires_burst (events : List FsEvent) :
    (∀ ev ∈ events, eventQualifies ev = true) →
    events.Chain' (fun a b => a.time ≤ b.time ∧ b.time < a.time + 1000) →
    ∀ t : Nat, (∀ ev ∈ events.head?, ev.time < t + 1000) →
    countFires (some (t + 1000)) events = 1 := by
  induction events with
  | nil => intro _ _ t _; rfl
  | cons e rest ih =>
    intro hq hchain t hlt
    have he : e.time < t + 1000 := hlt e (by simp)
    obtain ⟨hhead, htail⟩ := List.chain'_cons'.mp hchain
    have hnot : ¬(t + 1000 ≤ e.time) := by omega
    show (if t + 1000 ≤ e.time then 1 + countFires (on_modified none e) rest
      else countFires (on_modified (some (t + 1000)) e) rest) = 1
    rw [if_neg hnot, on_modified_qualifies e (hq e (List.mem_cons_self e rest))]
    exact ih (fun ev hev => hq ev (List.mem_cons_of_mem e hev)) htail e.time
      (fun ev hev => (hhead ev hev).2)

/-- C9: qualifying modification events (non-directory, `.yaml` path)
always cancel any pending debounce timer and start a fresh 1-second one;
non-qualifying events never change the watcher state; and over any
chronologically ordered, nonempty burst of qualifying events in which
consecutive events are less than 1 second apart, the recompilation
callback fires exactly once — when the last timer expires with no
intervening event. -/
theorem C9_debounce_coalesces_bursts (s : Option Nat) (e : FsEvent)
    (events : List FsEvent) :
    (eventQualifies e = true → on_modified s e = some (e.time + 1000)) ∧
    (eventQualifies e = false → on_modified s e = s) ∧
    (events ≠ [] → (∀ ev ∈ events, eventQualifies ev = true) →
      events.Chain' (fun a b => a.time ≤ b.time ∧ b.time < a.time + 1000) →
      countFires none events = 1) := by
  refine ⟨fun h => on_modified_qualifies e h s,
    fun h => on_modified_ignores e h s, ?_⟩
  intro hne hq hchain
  cases events with
  | nil => exact absurd rfl hne
  | cons e0 rest =>
    obtain ⟨hhead, htail⟩ := List.chain'_cons'.mp hchain
    show countFires (on_modified none e0) rest = 1
    rw [on_modified_qualifies e0 (hq e0 (List.mem_cons_self e0 rest))]
    exact countFires_burst rest
      (fun ev hev => hq ev (List.mem_cons_of_mem e0 hev)) htail e0.time
      (fun ev hev => (hhead ev hev).2)

/-- The spec's scenario: five write events within 200 ms. -/
def wBurst5 : List FsEvent :=
  [⟨0, false, "/config/accounts/a.yaml"⟩,
   ⟨50, false, "/config/accounts/a.yaml"⟩,
   ⟨100, false, "/config/global.yaml"⟩,
   ⟨150, false, "/config/accounts/b.yaml"⟩,
   ⟨200, false, "/config/accounts/a.yaml"⟩]

/-- C9 witness: the five-write burst within 200 ms yields exactly one
callback after the quiet period. -/
theorem C9_witness : countFires none wBurst5 = 1 :=
  (C9_debounce_coalesces_bursts none ⟨0, false, "x.yaml"⟩ wBurst5).2.2
    (by decide) (by decide)
    (by simp only [wBurst5, List.chain'_cons, List.chain'_singleton,
          and_true]; omega)

/-! ## C7 -/

/-- The invariant exactly as the claim states it: both sections present,
NON-EMPTY username and password, protocol in {imap, pop3}, host and port
present. -/
def claimedValidatedInvariant (c : AccountConfig) : Bool :=
  c.account.isSome && c.source.isSome &&
  truthyStr (c.account.getD emptyAccountSection).username &&
  truthyStr (c.account.getD emptyAccountSection).password &&
  ((c.source.getD emptySourceSection).protocol.getD "" = "imap" ||
   (c.source.getD emptySourceSection).protocol.getD "" = "pop3") &&
  (c.source.getD emptySourceSection).host.isSome &&
  (c.source.getD emptySourceSection).port.isSome

/-- The invariant the validator actually enforces: the username and
password keys need only be PRESENT — empty strings pass. -/
def amendedValidatedInvariant (c : AccountConfig) : Bool :=
  c.account.isSome && c.source.isSome &&
  (c.account.getD emptyAccountSection).username.isSome &&
  (c.account.getD emptyAccountSection).password.isSome &&
  ((c.source.getD emptySourceSection).protocol.getD "" = "imap" ||
   (c.source.getD emptySourceSection).protocol.getD "" = "pop3") &&
  (c.source.getD emptySourceSection).host.isSome &&
  (c.source.getD emptySourceSection).port.isSome

/-- A structurally complete account whose username and password are the
empty string. -/
def wEmptyCredsCfg : AccountConfig :=
  { account := some ⟨some "", some "", none⟩
    source := some ⟨some "imap", some "mail.example.org", some 993, none,
      none, none⟩
    fetch := none
    enabled := none }

/-- C7 counterexample: an account with empty-string username and password
survives validation, yet the claimed invariant (non-empty credentials)
fails on it. -/
theorem C7_counterexample :
    validationPasses (_validate_account_config "alice" wEmptyCredsCfg) = true ∧
    claimedValidatedInvariant wEmptyCredsCfg = false := by
  decide

/-- C7 (amended): validation succeeds exactly on accounts with both
sections present, username and password keys present (possibly empty),
protocol `imap` or `pop3`, and host and port present; equivalently it
raises on every violation of that invariant. -/
theorem C7_validation_characterisation (n : String) (c : AccountConfig) :
    validationPasses (_validate_account_config n c) = true ↔
      amendedValidatedInvariant c = true := by
  obtain ⟨acc, src, f, en⟩ := c
  cases acc with
  | none =>
    simp [_validate_account_config, amendedValidatedInvariant, validationPasses]
  | some a =>
  cases src with
  | none =>
    simp [_validate_account_config, amendedValidatedInvariant, validationPasses]
  | some s =>
  obtain ⟨au, ap, aps⟩ := a
  obtain ⟨sproto, shost, sport, sssl, ssu, ssp⟩ := s
  cases au with
  | none =>
    simp [_validate_account_config, amendedValidatedInvariant, validationPasses]
  | some u =>
  cases ap with
  | none =>
    simp [_validate_account_config, amendedValidatedInvariant, validationPasses]
  | some pw =>
  cases sproto with
  | none =>
    simp [_validate_account_config, amendedValidatedInvariant, validationPasses,
      (by decide : ¬(("" : String) = "imap")),
      (by decide : ¬(("" : String) = "pop3"))]
  | some p =>
  cases hq : (decide (p = "imap") || decide (p = "pop3")) with
  | false =>
    simp [_validate_account_config, amendedValidatedInvariant, validationPasses,
      hq]
  | true =>
  cases shost with
  | none =>
    simp [_validate_account_config, amendedValidatedInvariant, validationPasses,
      hq]
  | some h0 =>
  cases sport with
  | none =>
    simp [_validate_account_config, amendedValidatedInvariant, validationPasses,
      hq]
  | some pt =>
    simp [_validate_account_config, amendedValidatedInvariant, validationPasses,
      hq]

/-- C7 witness for the amended characterisation: a fully valid account
passes validation. -/
theorem C7_witness :
    validationPasses (_validate_account_config "alice" wValidCfg) = true :=
  (C7_validation_characterisation "alice" wValidCfg).2 (by decide)

/-! ## C6 -/

/-- The batch-limit merge rule exactly as the claim states it:
per-account `fetch` override, else the global fetchmail block, else 100. -/
def claimedBatchLimit (fm : FetchmailSection) (fi : FetchSection) : Nat :=
  match fi.batch_limit with
  | some n => n
  | none =>
    match fm.batch_limit with
    | some n => n
    | none => 100

/-- The folder-list merge rule exactly as the claim states it:
per-account `fetch` override, else the global fetchmail block, else a
single INBOX folder. -/
def claimedFolders (fm : FetchmailSection) (fi : FetchSection) : List String :=
  match fi.folders with
  | some l => l
  | none =>
    match fm.folders with
    | some l => l
    | none => ["INBOX"]

/-- Global settings whose fetchmail block carries `batch_limit: 50` and
`folders: [Archive]`. -/
def wGlobalBatch50 : GlobalConfig :=
  ⟨none, some ⟨none, none, none, some 50, some ["Archive"]⟩⟩

/-- An enabled-view element for the valid account (no `fetch` section). -/
def wEnabledValid : EnabledAccount := ⟨some "alice", wValidCfg⟩

/-- C6 counterexample: with a global fetchmail block carrying
`batch_limit: 50` and `folders: [Archive]` and an account without a
`fetch` section, the code renders batch limit 100 and folders [INBOX] —
it never consults the global block — while the claimed merge would give
50 and [Archive]. -/
theorem C6_counterexample :
    ((_prepare_template_data wGlobalBatch50 [wEnabledValid]).accounts.map
      fun a => a.source.batch_limit) = [100] ∧
    claimedBatchLimit (wGlobalBatch50.fetchmail.getD emptyFetchmailSection)
      (wEnabledValid.config.fetch.getD emptyFetchSection) = 50 ∧
    ((_prepare_template_data wGlobalBatch50 [wEnabledValid]).accounts.map
      fun a => a.source.folders) = [["INBOX"]] ∧
    claimedFolders (wGlobalBatch50.fetchmail.getD emptyFetchmailSection)
      (wEnabledValid.config.fetch.getD emptyFetchSection) = ["Archive"] := by
  decide

/-- The merge the code actually performs, in the spec's vocabulary:
keep-mail = per-account, else global, else on; batch limit = per-account,
else 100; folder list = per-account, else a single INBOX folder (the
global block is consulted for neither); protocol defaults to pop3 and
the TLS flag to on. -/
def amendedFetchAccountData (fm : FetchmailSection) (acc : EnabledAccount) :
    FetchAccountData :=
  let account_info := acc.config.account.getD emptyAccountSection
  let source_info := acc.config.source.getD emptySourceSection
  let fetch_info := acc.config.fetch.getD emptyFetchSection
  { name := acc.accountName.getD "unknown"
    username := account_info.username
    source :=
      { protocol := source_info.protocol.getD "pop3"
        host := source_info.host
        port := source_info.port
        ssl := source_info.ssl.getD true
        username := source_info.username
        password := source_info.password
        keep_mail :=
          match fetch_info.keep_mail with
          | some b => b
          | none =>
            match fm.keep_mail with
            | some b => b
            | none => true
        batch_limit := fetch_info.batch_limit.getD 100
        folders := fetch_info.folders.getD ["INBOX"] } }

theorem fetch_account_data_eq_amended (fm : FetchmailSection)
    (acc : EnabledAccount) :
    fetch_account_data fm acc = amendedFetchAccountData fm acc := by
  unfold fetch_account_data amendedFetchAccountData
  cases hk : (acc.config.fetch.getD emptyFetchSection).keep_mail with
  | none => cases hg : fm.keep_mail <;> simp [hk, hg]
  | some b => simp [hk]

/-- C6 (amended): for every enabled account the rendered fetch parameters
are: keep-mail per-account, else global, else on; batch limit per-account
else 100 and folder list per-account else [INBOX] — the global fetchmail
block is ignored for both (replacing its `batch_limit`/`folders` entries
never changes the output); protocol defaults to pop3, TLS to on; poll
interval defaults to 300 and syslog to off from the global block. -/
theorem C6_fetch_merge_semantics (g : GlobalConfig)
    (accs : List EnabledAccount) (bl : Option Nat)
    (fo : Option (List String)) :
    (_prepare_template_data g accs =
      { poll_interval :=
          (g.fetchmail.getD emptyFetchmailSection).poll_interval.getD 300
        syslog := (g.fetchmail.getD emptyFetchmailSection).syslog.getD false
        accounts := accs.map
          (amendedFetchAccountData (g.fetchmail.getD emptyFetchmailSection)) }) ∧
    _prepare_template_data
        ⟨g.dovecot, some { g.fetchmail.getD emptyFetchmailSection with
          batch_limit := bl, folders := fo }⟩ accs
      = _prepare_template_data g accs := by
  constructor
  · simp only [_prepare_template_data]
    rw [show fetch_account_data (g.fetchmail.getD emptyFetchmailSection)
        = amendedFetchAccountData (g.fetchmail.getD emptyFetchmailSection) from
      funext fun acc => fetch_account_data_eq_amended _ acc]
  · simp only [_prepare_template_data, Option.getD_some]
    apply congrArg (RcTemplateData.mk _ _)
    apply List.map_congr_left
    intro acc _
    unfold fetch_account_data
    rfl

/-- C6 witness for the amended merge semantics, at the concrete global
block carrying ignored `batch_limit`/`folders` entries. -/
theorem C6_witness :
    _prepare_template_data wGlobalBatch50 [wEnabledValid] =
      { poll_interval := 300
        syslog := false
        accounts := [wEnabledValid].map
          (amendedFetchAccountData
            (wGlobalBatch50.fetchmail.getD emptyFetchmailSection)) } :=
  (C6_fetch_merge_semantics wGlobalBatch50 [wEnabledValid] none none).1

/-! ## Enabled-view and success-path lemmas -/

theorem mem_get_enabled_accounts (l : List (String × AccountConfig))
    (ea : EnabledAccount) :
    ea ∈ get_enabled_accounts l ↔
      ∃ nc ∈ l, nc.2.enabled.getD true = true ∧ ea = ⟨some nc.1, nc.2⟩ := by
  unfold get_enabled_accounts
  rw [List.mem_filterMap]
  constructor
  · rintro ⟨nc, hmem, hf⟩
    by_cases h : nc.2.enabled.getD true = true
    · rw [if_pos h] at hf
      injection hf with hf
      exact ⟨nc, hmem, h, hf.symm⟩
    · rw [if_neg h] at hf
      cases hf
  · rintro ⟨nc, hmem, h, rfl⟩
    exact ⟨nc, hmem, by rw [if_pos h]⟩

theorem filter_get_enabled (l : List (String × AccountConfig)) :
    (get_enabled_accounts l).filter (fun a => a.config.enabled.getD true)
      = get_enabled_accounts l := by
  apply List.filter_eq_self.2
  intro a ha
  obtain ⟨nc, _, h, rfl⟩ := (mem_get_enabled_accounts l a).1 ha
  simpa using h

/-- The per-user directories created by `mail_dir_step`. -/
def mailDirsOf (acc : EnabledAccount) : List String :=
  let username := (acc.config.account.getD emptyAccountSection).username
  if truthyStr username then
    ["/data/mail/" ++ username.getD "",
     "/data/mail/" ++ username.getD "" ++ "/cur",
     "/data/mail/" ++ username.getD "" ++ "/new",
     "/data/mail/" ++ username.getD "" ++ "/tmp"]
  else []

/-- The per-user directory created by `fts_dir_step`. -/
def ftsDirsOf (acc : EnabledAccount) : List String :=
  let username := (acc.config.account.getD emptyAccountSection).username
  if truthyStr username then ["/data/fts/" ++ username.getD ""] else []

theorem files_mail_dir_step (fs : FS) (acc : EnabledAccount) :
    (mail_dir_step fs acc).files = fs.files := by
  unfold mail_dir_step
  by_cases h : truthyStr (acc.config.account.getD emptyAccountSection).username
  · simp [h, FS.files_mkdirP]
  · simp [h]

theorem files_fts_dir_step (fs : FS) (acc : EnabledAccount) :
    (fts_dir_step fs acc).files = fs.files := by
  unfold fts_dir_step
  by_cases h : truthyStr (acc.config.account.getD emptyAccountSection).username
  · simp [h, FS.files_mkdirP]
  · simp [h]

theorem dirs_mail_dir_step (fs : FS) (acc : EnabledAccount) (q : String) :
    ((mail_dir_step fs acc).dirs q = true) ↔
      (fs.dirs q = true ∨ q ∈ mailDirsOf acc) := by
  unfold mail_dir_step mailDirsOf
  by_cases h : truthyStr (acc.config.account.getD emptyAccountSection).username
  · simp only [h, Bool.not_true, Bool.false_eq_true, if_false, if_true,
      FS.dirs_mkdirP_iff, List.mem_cons, List.mem_singleton]
    tauto
  · simp only [h, Bool.not_false, Bool.false_eq_true, if_true, if_false,
      List.not_mem_nil, or_false]

theorem dirs_fts_dir_step (fs : FS) (acc : EnabledAccount) (q : String) :
    ((fts_dir_step fs acc).dirs q = true) ↔
      (fs.dirs q = true ∨ q ∈ ftsDirsOf acc) := by
  unfold fts_dir_step ftsDirsOf
  by_cases h : truthyStr (acc.config.account.getD emptyAccountSection).username
  · simp only [h, Bool.not_true, Bool.false_eq_true, if_false, if_true,
      FS.dirs_mkdirP_iff, List.mem_singleton]
  · simp only [h, Bool.not_false, Bool.false_eq_true, if_true, if_false,
      List.not_mem_nil, or_false]

theorem files_create_mailbox_directories (accs : List EnabledAccount)
    (fs : FS) :
    (_create_mailbox_directories accs fs).files = fs.files := by
  unfold _create_mailbox_directories
  rw [files_foldl fts_dir_step files_fts_dir_step, FS.files_mkdirP,
    files_foldl mail_dir_step files_mail_dir_step, FS.files_mkdirP]

theorem dirs_create_mailbox_directories (accs : List EnabledAccount)
    (fs : FS) (q : String) :
    ((_create_mailbox_directories accs fs).dirs q = true) ↔
      (fs.dirs q = true ∨ q = "/data/mail" ∨ q = "/data/fts" ∨
        ∃ a ∈ accs, q ∈ mailDirsOf a ∨ q ∈ ftsDirsOf a) := by
  unfold _create_mailbox_directories
  rw [dirs_foldl_iff fts_dir_step ftsDirsOf dirs_fts_dir_step,
    FS.dirs_mkdirP_iff,
    dirs_foldl_iff mail_dir_step mailDirsOf dirs_mail_dir_step,
    FS.dirs_mkdirP_iff]
  constructor
  · rintro ((((h | h) | ⟨a, ha, h⟩) | h) | ⟨a, ha, h⟩)
    · exact Or.inl h
    · exact Or.inr (Or.inl h)
    · exact Or.inr (Or.inr (Or.inr ⟨a, ha, Or.inl h⟩))
    · exact Or.inr (Or.inr (Or.inl h))
    · exact Or.inr (Or.inr (Or.inr ⟨a, ha, Or.inr h⟩))
  · rintro (h | h | h | ⟨a, ha, h | h⟩)
    · exact Or.inl (Or.inl (Or.inl (Or.inl h)))
    · exact Or.inl (Or.inl (Or.inl (Or.inr h)))
    · exact Or.inl (Or.inr h)
    · exact Or.inl (Or.inl (Or.inr ⟨a, ha, h⟩))
    · exact Or.inr ⟨a, ha, h⟩

theorem isEmpty_false_of_ne_nil {α : Type} {l : List α} (h : l ≠ []) :
    l.isEmpty = false := by
  cases l with
  | nil => exact absurd rfl h
  | cons x xs => rfl

/-- Shape of a successful compilation cycle: base directories, then the
dovecot artifacts, then the fetchmail artifact, exit 0. -/
theorem init_configs_success (gen : Renderers)
    (globalFile : Option GlobalConfig)
    (accountFiles : List (String × Option AccountConfig)) (fs : FS)
    (hval : validate_all (load_account_configs accountFiles) = .ok ())
    (hne : get_enabled_accounts (load_account_configs accountFiles) ≠ []) :
    init_configs gen globalFile accountFiles fs =
      (fetchmail_generate_config gen.renderRc (load_global_config globalFile)
        (get_enabled_accounts (load_account_configs accountFiles))
        "/etc/fetchmailrc"
        (dovecot_generate_config gen.dovecot (load_global_config globalFile)
          (get_enabled_accounts (load_account_configs accountFiles))
          "/etc/dovecot/dovecot.conf" "/etc/dovecot/users"
          (ensure_base_directories fs)), none) := by
  simp only [init_configs, load_all, hval, isEmpty_false_of_ne_nil hne,
    Bool.false_eq_true, if_false]

theorem FS.files_write_apply (fs : FS) (p c q : String) :
    (fs.write p c).files q = if q = p then some c else fs.files q := rfl

theorem FS.dirs_write_apply (fs : FS) (p c q : String) :
    (fs.write p c).dirs q = fs.dirs q := rfl

theorem FS.dirs_chmod_apply (fs : FS) (p : String) (m : Nat) (q : String) :
    (fs.chmod p m).dirs q = fs.dirs q := rfl

theorem FS.files_chmod_apply (fs : FS) (p : String) (m : Nat) (q : String) :
    (fs.chmod p m).files q = fs.files q := rfl

/-- File contents after `DovecotGenerator.generate_config`: the users file
and main config are written (in that order), everything else untouched;
the main template data is computed on the incoming filesystem state. -/
theorem files_dovecot_generate_config (gen : DovecotRenderers)
    (g : GlobalConfig) (accs : List EnabledAccount)
    (confPath usersPath : String) (fs : FS) (q : String) :
    (dovecot_generate_config gen g accs confPath usersPath fs).files q =
      if q = usersPath then some (gen.renderUsers (users_data accs))
      else if q = confPath then
        some (gen.renderMain (main_template_data g fs))
      else fs.files q := by
  simp only [dovecot_generate_config, _generate_users_file,
    _generate_main_config, files_create_mailbox_directories, FS.files_chmod,
    FS.files_mkdirP, FS.files_write_apply]

/-- File contents after `FetchmailGenerator.generate_config` when the
re-filtered enabled list is nonempty. -/
theorem files_fetchmail_generate_config (render : RcTemplateData → String)
    (g : GlobalConfig) (accs : List EnabledAccount) (path : String) (fs : FS)
    (q : String)
    (h : accs.filter (fun a => a.config.enabled.getD true) ≠ []) :
    (fetchmail_generate_config render g accs path fs).files q =
      if q = path then
        some (render (_prepare_template_data g
          (accs.filter fun a => a.config.enabled.getD true)))
      else fs.files q := by
  simp only [fetchmail_generate_config, isEmpty_false_of_ne_nil h,
    Bool.false_eq_true, if_false, FS.files_chmod, FS.files_mkdirP,
    FS.files_write_apply]

/-- `FetchmailGenerator.generate_config` writes nothing when the
re-filtered enabled list is empty (the skip-with-warning branch). -/
theorem fetchmail_generate_config_skip (render : RcTemplateData → String)
    (g : GlobalConfig) (accs : List EnabledAccount) (path : String) (fs : FS)
    (h : accs.filter (fun a => a.config.enabled.getD true) = []) :
    fetchmail_generate_config render g accs path fs = fs := by
  simp only [fetchmail_generate_config, h, List.isEmpty_nil, if_true]

theorem dirs_dovecot_generate_config (gen : DovecotRenderers)
    (g : GlobalConfig) (accs : List EnabledAccount)
    (confPath usersPath : String) (fs : FS) (q : String) :
    ((dovecot_generate_config gen g accs confPath usersPath fs).dirs q
        = true) ↔
      (fs.dirs q = true ∨ q = parentDir confPath ∨ q = parentDir usersPath ∨
        q = "/data/mail" ∨ q = "/data/fts" ∨
        ∃ a ∈ accs, q ∈ mailDirsOf a ∨ q ∈ ftsDirsOf a) := by
  simp only [dovecot_generate_config, _generate_users_file,
    _generate_main_config]
  rw [dirs_create_mailbox_directories]
  simp only [FS.dirs_chmod_apply, FS.dirs_write_apply, FS.dirs_mkdirP_iff,
    or_assoc]

theorem dirs_fetchmail_generate_config (render : RcTemplateData → String)
    (g : GlobalConfig) (accs : List EnabledAccount) (path : String) (fs : FS)
    (q : String)
    (h : accs.filter (fun a => a.config.enabled.getD true) ≠ []) :
    ((fetchmail_generate_config render g accs path fs).dirs q = true) ↔
      (fs.dirs q = true ∨ q = parentDir path) := by
  simp only [fetchmail_generate_config, isEmpty_false_of_ne_nil h,
    Bool.false_eq_true, if_false, FS.dirs_chmod_apply, FS.dirs_write_apply,
    FS.dirs_mkdirP_iff]

/-- Artifact contents of a successful cycle: the three files hold the
renders of the data the code computes, and the exit status is 0. -/
theorem init_configs_artifact_files (gen : Renderers)
    (globalFile : Option GlobalConfig)
    (accountFiles : List (String × Option AccountConfig)) (fs : FS)
    (hval : validate_all (load_account_configs accountFiles) = .ok ())
    (hne : get_enabled_accounts (load_account_configs accountFiles) ≠ []) :
    ((init_configs gen globalFile accountFiles fs).1).files
        "/etc/dovecot/dovecot.conf"
      = some (gen.dovecot.renderMain (main_template_data
          (load_global_config globalFile) (ensure_base_directories fs))) ∧
    ((init_configs gen globalFile accountFiles fs).1).files
        "/etc/dovecot/users"
      = some (gen.dovecot.renderUsers (users_data
          (get_enabled_accounts (load_account_configs accountFiles)))) ∧
    ((init_configs gen globalFile accountFiles fs).1).files "/etc/fetchmailrc"
      = some (gen.renderRc (_prepare_template_data
          (load_global_config globalFile)
          (get_enabled_accounts (load_account_configs accountFiles)))) ∧
    (init_configs gen globalFile accountFiles fs).2 = none := by
  rw [init_configs_success gen globalFile accountFiles fs hval hne]
  have hfil := filter_get_enabled (load_account_configs accountFiles)
  have hfne : (get_enabled_accounts
      (load_account_configs accountFiles)).filter
      (fun a => a.config.enabled.getD true) ≠ [] := by
    rw [hfil]; exact hne
  refine ⟨?_, ?_, ?_, rfl⟩
  · show (fetchmail_generate_config _ _ _ _ _).files _ = _
    rw [files_fetchmail_generate_config _ _ _ _ _ _ hfne,
      if_neg (by decide : ¬("/etc/dovecot/dovecot.conf" = "/etc/fetchmailrc")),
      files_dovecot_generate_config,
      if_neg (by decide :
        ¬("/etc/dovecot/dovecot.conf" = "/etc/dovecot/users")),
      if_pos rfl]
  · show (fetchmail_generate_config _ _ _ _ _).files _ = _
    rw [files_fetchmail_generate_config _ _ _ _ _ _ hfne,
      if_neg (by decide : ¬("/etc/dovecot/users" = "/etc/fetchmailrc")),
      files_dovecot_generate_config, if_pos rfl]
  · show (fetchmail_generate_config _ _ _ _ _).files _ = _
    rw [files_fetchmail_generate_config _ _ _ _ _ _ hfne, if_pos rfl, hfil]

/-! ## C5 -/

/-- C5 counterexample: a batch whose single account is valid but disabled
gives an empty enabled-account list; the cycle then aborts with exit 1
(an error, not a mere warning) and the mail-store main config is NOT
produced, contradicting the claim that the mail-store artifacts are still
generated in that cycle. -/
theorem C5_counterexample :
    (init_configs wRenderers none [("alice", some wDisabledCfg)] wEmptyFS).2
      = some InitError.noEnabledAccounts ∧
    ((init_configs wRenderers none [("alice", some wDisabledCfg)]
        wEmptyFS).1).files "/etc/dovecot/dovecot.conf" = none := by
  constructor
  · decide
  · decide

/-- C5 (amended): when the enabled-account list of a cycle is empty (and
validation passed), the cycle aborts with exit 1 right after ensuring the
base directory roots: neither the rc file nor any mail-store file is
written.  The remote-fetch generator itself, if invoked with a list with
no enabled account, skips generation and returns the filesystem
unchanged (only logging a warning). -/
theorem C5_empty_enabled_aborts (gen : Renderers)
    (globalFile : Option GlobalConfig)
    (accountFiles : List (String × Option AccountConfig)) (fs : FS)
    (hval : validate_all (load_account_configs accountFiles) = .ok ())
    (hemp : get_enabled_accounts (load_account_configs accountFiles) = []) :
    init_configs gen globalFile accountFiles fs
      = (ensure_base_directories fs, some .noEnabledAccounts) ∧
    (∀ (render : RcTemplateData → String) (g : GlobalConfig)
        (accs : List EnabledAccount) (path : String) (fs2 : FS),
      accs.filter (fun a => a.config.enabled.getD true) = [] →
      fetchmail_generate_config render g accs path fs2 = fs2) := by
  refine ⟨?_, fun render g accs path fs2 h =>
    fetchmail_generate_config_skip render g accs path fs2 h⟩
  simp only [init_configs, load_all, hval, hemp, List.isEmpty_nil, if_true]

/-- C5 witness: the amended behaviour at the concrete all-disabled batch. -/
theorem C5_witness :
    init_configs wRenderers none [("alice", some wDisabledCfg)] wEmptyFS
      = (ensure_base_directories wEmptyFS, some .noEnabledAccounts) ∧
    fetchmail_generate_config wRenderers.renderRc emptyGlobalConfig
      [⟨some "alice", wDisabledCfg⟩] "/etc/fetchmailrc" wEmptyFS = wEmptyFS := by
  have h := C5_empty_enabled_aborts wRenderers none
    [("alice", some wDisabledCfg)] wEmptyFS (by decide) (by decide)
  exact ⟨h.1, h.2 wRenderers.renderRc emptyGlobalConfig
    [⟨some "alice", wDisabledCfg⟩] "/etc/fetchmailrc" wEmptyFS (by decide)⟩

/-! ## C8 -/

/-- C8: running the compilation cycle a second time on the filesystem the
first (successful) run produced — with the same global settings and
account files, and the TLS-material existence unchanged by the first run
— again exits 0 (no error from the already-existing directories, all
creations being exist-ok) and writes byte-identical main config,
credentials and rc artifacts. -/
theorem C8_cycle_idempotent (gen : Renderers)
    (globalFile : Option GlobalConfig)
    (accountFiles : List (String × Option AccountConfig)) (fs : FS)
    (h1 : (init_configs gen globalFile accountFiles fs).2 = none)
    (hTLS : ∀ p,
      ((load_global_config globalFile).dovecot.getD
        emptyDovecotSection).ssl_cert = some p ∨
      ((load_global_config globalFile).dovecot.getD
        emptyDovecotSection).ssl_key = some p →
      ((init_configs gen globalFile accountFiles fs).1).pathExists p
        = fs.pathExists p) :
    (init_configs gen globalFile accountFiles
      ((init_configs gen globalFile accountFiles fs).1)).2 = none ∧
    ((init_configs gen globalFile accountFiles
        ((init_configs gen globalFile accountFiles fs).1)).1).files
        "/etc/dovecot/dovecot.conf"
      = ((init_configs gen globalFile accountFiles fs).1).files
        "/etc/dovecot/dovecot.conf" ∧
    ((init_configs gen globalFile accountFiles
        ((init_configs gen globalFile accountFiles fs).1)).1).files
        "/etc/dovecot/users"
      = ((init_configs gen globalFile accountFiles fs).1).files
        "/etc/dovecot/users" ∧
    ((init_configs gen globalFile accountFiles
        ((init_configs gen globalFile accountFiles fs).1)).1).files
        "/etc/fetchmailrc"
      = ((init_configs gen globalFile accountFiles fs).1).files
        "/etc/fetchmailrc" := by
  have hval : validate_all (load_account_configs accountFiles) = .ok () := by
    cases hv : validate_all (load_account_configs accountFiles) with
    | ok u => cases u; rfl
    | error e =>
      simp only [init_configs, load_all, hv] at h1
      cases h1
  have hne : get_enabled_accounts (load_account_configs accountFiles) ≠ [] := by
    intro hemp
    simp only [init_configs, load_all, hval, hemp, List.isEmpty_nil,
      if_true] at h1
    cases h1
  have hA := init_configs_artifact_files gen globalFile accountFiles fs
    hval hne
  have hB := init_configs_artifact_files gen globalFile accountFiles
    ((init_configs gen globalFile accountFiles fs).1) hval hne
  have hmain : main_template_data (load_global_config globalFile)
      (ensure_base_directories ((init_configs gen globalFile accountFiles
        fs).1))
      = main_template_data (load_global_config globalFile)
        (ensure_base_directories fs) := by
    apply main_template_data_congr
    intro p hp
    have h0 := hTLS p hp
    rw [Bool.eq_iff_iff, pathExists_ensure_base_directories,
      pathExists_ensure_base_directories, h0]
  refine ⟨hB.2.2.2, ?_, ?_, ?_⟩
  · rw [hB.1, hA.1, hmain]
  · rw [hB.2.1, hA.2.1]
  · rw [hB.2.2.1, hA.2.2.1]

/-- C8 witness: concrete successful cycle (one valid enabled account, no
TLS material configured) run twice. -/
theorem C8_witness :
    (init_configs wRenderers none [("alice", some wValidCfg)] wEmptyFS).2
      = none ∧
    (init_configs wRenderers none [("alice", some wValidCfg)]
      ((init_configs wRenderers none [("alice", some wValidCfg)]
        wEmptyFS).1)).2 = none ∧
    ((init_configs wRenderers none [("alice", some wValidCfg)]
        ((init_configs wRenderers none [("alice", some wValidCfg)]
          wEmptyFS).1)).1).files "/etc/dovecot/dovecot.conf"
      = ((init_configs wRenderers none [("alice", some wValidCfg)]
          wEmptyFS).1).files "/etc/dovecot/dovecot.conf" := by
  have h := C8_cycle_idempotent wRenderers none [("alice", some wValidCfg)]
    wEmptyFS (by decide)
    (fun p hp => hp.elim (fun h => Option.noConfusion h)
      (fun h => Option.noConfusion h))
  exact ⟨by decide, h.1, h.2.1⟩

/-! ## C2 -/

/-- C2: an account whose `enabled` flag is false never enters the enabled
view (while an absent flag defaults to true and the account is included);
and on a successful cycle the credentials file and rc file are renders of
data drawn from the enabled view only, and every directory the cycle
creates is a fixed base directory or a per-user directory of an
enabled-view member — so disabled accounts appear in no artifact and get
no mailbox or search-index directory. -/
theorem C2_disabled_accounts_never_reach_artifacts (gen : Renderers)
    (globalFile : Option GlobalConfig)
    (accountFiles : List (String × Option AccountConfig)) (fs : FS)
    (n : String) (c : AccountConfig) :
    (∀ ea ∈ get_enabled_accounts (load_account_configs accountFiles),
      ea.config.enabled ≠ some false) ∧
    ((n, c) ∈ load_account_configs accountFiles → c.enabled = some false →
      (⟨some n, c⟩ : EnabledAccount)
        ∉ get_enabled_accounts (load_account_configs accountFiles)) ∧
    ((n, c) ∈ load_account_configs accountFiles → c.enabled = none →
      (⟨some n, c⟩ : EnabledAccount)
        ∈ get_enabled_accounts (load_account_configs accountFiles)) ∧
    ((init_configs gen globalFile accountFiles fs).2 = none →
      ((init_configs gen globalFile accountFiles fs).1).files
          "/etc/dovecot/users"
        = some (gen.dovecot.renderUsers (users_data
            (get_enabled_accounts (load_account_configs accountFiles)))) ∧
      ((init_configs gen globalFile accountFiles fs).1).files
          "/etc/fetchmailrc"
        = some (gen.renderRc (_prepare_template_data
            (load_global_config globalFile)
            (get_enabled_accounts (load_account_configs accountFiles)))) ∧
      ∀ q, (((init_configs gen globalFile accountFiles fs).1).dirs q
          = true) →
        fs.dirs q = true ∨
        q ∈ ["/data/mail", "/data/fts", "/data/logs", "/etc/dovecot",
          "/etc/fetchmail", "/etc"] ∨
        ∃ ea ∈ get_enabled_accounts (load_account_configs accountFiles),
          q ∈ mailDirsOf ea ∨ q ∈ ftsDirsOf ea) := by
  refine ⟨?_, ?_, ?_, ?_⟩
  · intro ea hea heq
    obtain ⟨nc, _, hget, rfl⟩ :=
      (mem_get_enabled_accounts (load_account_configs accountFiles) ea).1 hea
    rw [heq] at hget
    cases hget
  · intro hmem hfalse hin
    obtain ⟨nc, _, hget, heq⟩ :=
      (mem_get_enabled_accounts (load_account_configs accountFiles) _).1 hin
    injection heq with h1 h2
    rw [← h2, hfalse] at hget
    cases hget
  · intro hmem hnone
    exact (mem_get_enabled_accounts (load_account_configs accountFiles) _).2
      ⟨(n, c), hmem, by rw [hnone]; rfl, rfl⟩
  · intro hsucc
    have hval : validate_all (load_account_configs accountFiles) = .ok () := by
      cases hv : validate_all (load_account_configs accountFiles) with
      | ok u => cases u; rfl
      | error e =>
        simp only [init_configs, load_all, hv] at hsucc
        cases hsucc
    have hne : get_enabled_accounts (load_account_configs accountFiles)
        ≠ [] := by
      intro hemp
      simp only [init_configs, load_all, hval, hemp, List.isEmpty_nil,
        if_true] at hsucc
      cases hsucc
    have hA := init_configs_artifact_files gen globalFile accountFiles fs
      hval hne
    refine ⟨hA.2.1, hA.2.2.1, ?_⟩
    have hfne : (get_enabled_accounts
        (load_account_configs accountFiles)).filter
        (fun a => a.config.enabled.getD true) ≠ [] := by
      rw [filter_get_enabled]; exact hne
    intro q hq
    rw [init_configs_success gen globalFile accountFiles fs hval hne] at hq
    rw [show ((fetchmail_generate_config gen.renderRc
        (load_global_config globalFile)
        (get_enabled_accounts (load_account_configs accountFiles))
        "/etc/fetchmailrc" (dovecot_generate_config gen.dovecot
          (load_global_config globalFile)
          (get_enabled_accounts (load_account_configs accountFiles))
          "/etc/dovecot/dovecot.conf" "/etc/dovecot/users"
          (ensure_base_directories fs)), none).1 : FS)
      = fetchmail_generate_config gen.renderRc
        (load_global_config globalFile)
        (get_enabled_accounts (load_account_configs accountFiles))
        "/etc/fetchmailrc" (dovecot_generate_config gen.dovecot
          (load_global_config globalFile)
          (get_enabled_accounts (load_account_configs accountFiles))
          "/etc/dovecot/dovecot.conf" "/etc/dovecot/users"
          (ensure_base_directories fs)) from rfl] at hq
    rw [dirs_fetchmail_generate_config _ _ _ _ _ _ hfne] at hq
    rcases hq with hq | hq
    · rw [dirs_dovecot_generate_config] at hq
      rcases hq with hq | hq | hq | hq | hq | hq
      · rcases (dirs_ensure_base_directories fs q).1 hq with hq | hq
        · exact Or.inl hq
        · right; left
          simp only [List.mem_cons, List.not_mem_nil, or_false] at hq ⊢
          tauto
      · right; left
        rw [hq, (by decide :
          parentDir "/etc/dovecot/dovecot.conf" = "/etc/dovecot")]
        decide
      · right; left
        rw [hq, (by decide : parentDir "/etc/dovecot/users" = "/etc/dovecot")]
        decide
      · right; left; rw [hq]; decide
      · right; left; rw [hq]; decide
      · exact Or.inr (Or.inr hq)
    · right; left
      rw [hq, (by decide : parentDir "/etc/fetchmailrc" = "/etc")]
      decide

/-- C2 witness: a batch holding one enabled (flag absent) and one
disabled account; the disabled one is excluded from the view, the other
included, and the credentials artifact is the render over the view. -/
theorem C2_witness :
    ((⟨some "bob", wDisabledCfg⟩ : EnabledAccount)
      ∉ get_enabled_accounts (load_account_configs
        [("alice", some wValidCfg), ("bob", some wDisabledCfg)])) ∧
    ((⟨some "alice", wValidCfg⟩ : EnabledAccount)
      ∈ get_enabled_accounts (load_account_configs
        [("alice", some wValidCfg), ("bob", some wDisabledCfg)])) ∧
    ((init_configs wRenderers none
        [("alice", some wValidCfg), ("bob", some wDisabledCfg)]
        wEmptyFS).1).files "/etc/dovecot/users"
      = some (wRenderers.dovecot.renderUsers (users_data
          (get_enabled_accounts (load_account_configs
            [("alice", some wValidCfg), ("bob", some wDisabledCfg)])))) := by
  have hb := C2_disabled_accounts_never_reach_artifacts wRenderers none
    [("alice", some wValidCfg), ("bob", some wDisabledCfg)] wEmptyFS
    "bob" wDisabledCfg
  have ha := C2_disabled_accounts_never_reach_artifacts wRenderers none
    [("alice", some wValidCfg), ("bob", some wDisabledCfg)] wEmptyFS
    "alice" wValidCfg
  exact ⟨hb.2.1 (by decide) (by decide), ha.2.2.1 (by decide) (by decide),
    (hb.2.2.2 (by decide)).1⟩

/-! ## C10 -/

/-- C10: the credentials rows are exactly one per account in the list —
accounts with a missing or empty username included, their row carrying
the raw (possibly null) username — whereas directory provisioning only
ever creates, besides the shared roots, directories of accounts whose
username is truthy (non-null, non-empty); so rows and provisioned
per-user directories can diverge. -/
theorem C10_credentials_rows_vs_directory_provisioning
    (accs : List EnabledAccount) (fs : FS) :
    (users_data accs).length = accs.length ∧
    (∀ acc ∈ accs,
      ({ username := (acc.config.account.getD emptyAccountSection).username
         password := (acc.config.account.getD emptyAccountSection).password
         password_scheme := (acc.config.account.getD
           emptyAccountSection).password_scheme.getD "PLAIN" } : UserRow)
        ∈ users_data accs) ∧
    (∀ q, ((_create_mailbox_directories accs fs).dirs q = true) →
      fs.dirs q = true ∨ q = "/data/mail" ∨ q = "/data/fts" ∨
      ∃ a ∈ accs,
        truthyStr ((a.config.account.getD emptyAccountSection).username)
          = true ∧ (q ∈ mailDirsOf a ∨ q ∈ ftsDirsOf a)) := by
  refine ⟨by simp [users_data], ?_, ?_⟩
  · intro acc hacc
    exact List.mem_map_of_mem _ hacc
  · intro q hq
    rcases (dirs_create_mailbox_directories accs fs q).1 hq with
      h | h | h | ⟨a, ha, h⟩
    · exact Or.inl h
    · exact Or.inr (Or.inl h)
    · exact Or.inr (Or.inr (Or.inl h))
    · refine Or.inr (Or.inr (Or.inr ⟨a, ha, ?_, h⟩))
      by_cases ht : truthyStr
          ((a.config.account.getD emptyAccountSection).username) = true
      · exact ht
      · exfalso
        rcases h with h | h
        · simp only [mailDirsOf, if_neg ht, List.not_mem_nil] at h
        · simp only [ftsDirsOf, if_neg ht, List.not_mem_nil] at h

/-- An enabled account with no username key. -/
def wNoUserEA : EnabledAccount :=
  ⟨some "ghost",
   { account := some ⟨none, some "pw", none⟩
     source := some ⟨some "pop3", some "mail.example.org", some 110, none,
       none, none⟩
     fetch := none
     enabled := none }⟩

/-- C10 witness: the username-less account still yields its (null-user)
credentials row. -/
theorem C10_witness :
    (users_data [wNoUserEA]).length = [wNoUserEA].length ∧
    ({ username := none, password := some "pw", password_scheme := "PLAIN" }
      : UserRow) ∈ users_data [wNoUserEA] := by
  have h := C10_credentials_rows_vs_directory_provisioning [wNoUserEA]
    wEmptyFS
  exact ⟨h.1, h.2.1 wNoUserEA (by decide)⟩
